import Mathlib

/-!
Verification development for the FeedbackPDF survey-extraction pipeline
(supabase/functions/test-openai/index.ts).  The TypeScript source is shallowly
embedded: JavaScript strings become `String`/`List Char`, JSON values become
the inductive `JVal`, JavaScript numbers become `ℚ` (the JSON values occurring
here are finite decimals, on which IEEE-754 comparison agrees with the rational
order), and thrown exceptions become `Except`.  The byte-level text-extraction
strategies and the regex separator battery of the form segmenter are inputs the
claims hold uniformly in; they are modelled as explicit parameters (`PdfInput`
fields, the `seps` argument).  Everything else follows the source line by line.
-/

/-- JavaScript whitespace as used by trim, the regex class backslash-s, and
parseInt (ASCII part; the Unicode space characters never occur in the inputs
modelled here). -/
def jsWS (c : Char) : Bool :=
  c == ' ' || c == '\t' || c == '\n' || c == '\r' || c == '\x0b' || c == '\x0c'

/-- JavaScript String.prototype.trim on character lists. -/
def trimChars (l : List Char) : List Char :=
  (((l.dropWhile jsWS).reverse.dropWhile jsWS)).reverse

/-- JavaScript String.prototype.trim. -/
def jsTrim (s : String) : String := String.mk (trimChars s.data)

/-- JavaScript String.prototype.toLowerCase (ASCII; the email strings modelled
here are ASCII). -/
def jsLower (s : String) : String := String.mk (s.data.map Char.toLower)

/-- Word character for the regex word-boundary assertion: letters, digits,
underscore. -/
def wordChar (c : Char) : Bool := c.isAlphanum || c == '_'

/-- Accumulator for `matchRuns`: `cur` is the current run, reversed. -/
def runsAux (p : Char → Bool) (cur : List Char) : List Char → List (List Char)
  | [] => if cur.isEmpty then [] else [cur.reverse]
  | c :: rest =>
    if p c then runsAux p (c :: cur) rest
    else (if cur.isEmpty then [] else [cur.reverse]) ++ runsAux p [] rest

/-- The maximal runs of `p`-characters of a string, in order.  This is the
match list of a global regex of the form `[class]+` over the class decided
by `p`. -/
def matchRuns (p : Char → Bool) (l : List Char) : List (List Char) :=
  runsAux p [] l

/-- Whether `pat` occurs as a contiguous subsequence of `l`
(JavaScript String.prototype.includes). -/
def containsSeq (l pat : List Char) : Bool :=
  match l with
  | [] => pat.isEmpty
  | _ :: rest => pat.isPrefixOf l || containsSeq rest pat

/-- Digit accumulation for `jsParseInt`: consume leading decimal digits,
`none` when no digit was seen. -/
def jsParseIntCore : List Char → Option Nat → Option Nat
  | [], acc => acc
  | c :: rest, acc =>
    if c.isDigit then jsParseIntCore rest (some ((acc.getD 0) * 10 + (c.toNat - 48)))
    else acc

/-- JavaScript parseInt with radix 10: skip leading whitespace, optional sign,
then read the longest decimal-digit prefix; NaN (here `none`) when no digit
follows.  The automatic hex mode for a 0x prefix is not modelled; no input in
this development carries one. -/
def jsParseInt (s : String) : Option Int :=
  match s.data.dropWhile jsWS with
  | '-' :: rest => (jsParseIntCore rest none).map (fun n => -(n : Int))
  | '+' :: rest => (jsParseIntCore rest none).map (fun n => (n : Int))
  | l => (jsParseIntCore l none).map (fun n => (n : Int))

/-- JSON values, the result type of JSON.parse.  Object fields are listed in
order with unique keys, as JSON.parse produces. -/
inductive JVal where
  | null
  | bool (b : Bool)
  | num (q : ℚ)
  | str (s : String)
  | arr (xs : List JVal)
  | obj (fields : List (String × JVal))

/-- Field lookup in a parsed JSON object. -/
def jsField : List (String × JVal) → String → Option JVal
  | [], _ => none
  | (k, x) :: rest, key => if k = key then some x else jsField rest key

/-- JavaScript property access `v[k]` on a non-null value: a field of an
object, undefined (`none`) otherwise.  Access on null throws; callers model
that case explicitly before calling. -/
def jsGet (v : JVal) (k : String) : Option JVal :=
  match v with
  | .obj fs => jsField fs k
  | _ => none

/-- JavaScript truthiness of a JSON value. -/
def truthy : JVal → Bool
  | .null => false
  | .bool b => b
  | .num q => !(q == 0)
  | .str s => !(s == "")
  | .arr _ => true
  | .obj _ => true

/-- The SurveyResponse record of the source (interface SurveyResponse).
Absent and null field values are both `none`; `response_date` keeps an
arbitrary JSON value because the source copies it unvalidated. -/
structure SurveyResponse where
  course_name : String
  response_date : Option JVal := none
  q1_rating : Option ℚ := none
  q2_rating : Option ℚ := none
  q3_rating : Option ℚ := none
  q4_rating : Option ℚ := none
  q5_rating : Option ℚ := none
  q6_rating : Option ℚ := none
  q7_rating : Option ℚ := none
  q8_rating : Option ℚ := none
  q9_rating : Option ℚ := none
  q10_rating : Option ℚ := none
  q11_expectations : Option String := none
  q12_overall_rating : Option String := none
  learned_1 : Option String := none
  learned_2 : Option String := none
  learned_3 : Option String := none
  suggestions : Option String := none
  comments : Option String := none
  interested_more : Option String := none
  participant_name : Option String := none
  company : Option String := none
  email : Option String := none
  phone : Option String := none

/-- validateRating (index.ts lines 601-606).  The input is the JSON value of a
candidate field (`none` = absent/undefined).  Strings go through parseInt;
booleans compare as their numeric coercion (the source would return the
boolean itself, which is numerically the same value); composite values, which
never occur in the modelled inputs, validate to null. -/
def validateRating (value : Option JVal) (mn mx : ℚ) : Option ℚ :=
  match value with
  | none => none
  | some .null => none
  | some (.str s) =>
    if s = "" then none
    else
      match jsParseInt s with
      | none => none
      | some n => if (n : ℚ) < mn ∨ (n : ℚ) > mx then none else some (n : ℚ)
  | some (.num q) => if q < mn ∨ q > mx then none else some q
  | some (.bool b) =>
    let q : ℚ := if b then 1 else 0
    if q < mn ∨ q > mx then none else some q
  | some (.arr _) => none
  | some (.obj _) => none

/-- validateText (index.ts lines 608-613): non-strings and falsy values become
null; otherwise trim, then reject the empty and the over-long. -/
def validateText (value : Option JVal) : Option String :=
  match value with
  | some (.str s) =>
    if s = "" then none
    else
      let cleaned := jsTrim s
      if cleaned.length = 0 ∨ cleaned.length > 1000 then none else some cleaned
  | _ => none

/-- The email regex test: one or more characters that are neither whitespace
nor at-sign, an at-sign, the same, a dot, the same, spanning the whole string.
Equivalently: no whitespace, exactly one at-sign with a non-empty local part,
and a dot strictly inside the domain part. -/
def emailShape (l : List Char) : Bool :=
  match l.splitOn '@' with
  | [localPart, domain] =>
    !localPart.isEmpty && l.all (fun c => !(jsWS c)) &&
      ((domain.drop 1).dropLast.contains '.')
  | _ => false

/-- validateEmail (index.ts lines 615-619). -/
def validateEmail (value : Option JVal) : Option String :=
  match value with
  | some (.str s) =>
    if s = "" then none
    else if emailShape (jsTrim s).data then some (jsLower (jsTrim s)) else none
  | _ => none

/-- The per-field test `text && text.trim().length > 5` of index.ts line 635:
a truthy string whose trimmed length exceeds 5. -/
def substantialText (t : Option String) : Bool :=
  match t with
  | none => false
  | some s => !(s == "") && decide (5 < (jsTrim s).length)

/-- The per-field test `info && info.trim().length > 0` of index.ts line 640:
a truthy string that is non-empty after trimming. -/
def presentContact (t : Option String) : Bool :=
  match t with
  | none => false
  | some s => !(s == "") && decide (0 < (jsTrim s).length)

/-- hasMeaningfulSurveyData (index.ts lines 621-644): any rating present, or
any of seven listed text fields with trimmed length over 5, or any contact
field with trimmed length over 0. -/
def hasMeaningfulSurveyData (r : SurveyResponse) : Bool :=
  let hasRatings :=
    [r.q1_rating, r.q2_rating, r.q3_rating, r.q4_rating, r.q5_rating,
     r.q6_rating, r.q7_rating, r.q8_rating, r.q9_rating, r.q10_rating].any
      Option.isSome
  let hasTextResponses :=
    [r.learned_1, r.learned_2, r.learned_3, r.suggestions, r.comments,
     r.q11_expectations, r.q12_overall_rating].any substantialText
  let hasContactInfo :=
    [r.participant_name, r.company, r.email, r.phone].any presentContact
  hasRatings || hasTextResponses || hasContactInfo

/-! ## Scanned-document detection (index.ts lines 347-357) -/

/-- Letters or whitespace: the character class of the readability regex. -/
def alphaOrWS (c : Char) : Bool := c.isAlpha || jsWS c

/-- Total length of the matches of the global regex for runs of three or more
letters-or-whitespace characters: the numerator of readableTextRatio
(index.ts line 347). -/
def readableLen (l : List Char) : Nat :=
  (((matchRuns alphaOrWS l).filter (fun r => 3 ≤ r.length)).map List.length).sum

/-- Number of matches of the word-boundary-delimited alphabetic-token regex
(four or more letters between word boundaries, index.ts line 352).  A match of
that regex is exactly a maximal run of word characters that consists purely of
letters and has length at least 4: a shorter alphabetic stretch inside a word
run is flanked by a word character, which refutes the boundary assertion. -/
def wordTokenCount (l : List Char) : Nat :=
  ((matchRuns wordChar l).filter
    (fun r => decide (4 ≤ r.length) && r.all Char.isAlpha)).length

/-- hasEncodedData (index.ts line 351). -/
def hasEncodedData (l : List Char) : Bool :=
  containsSeq l "DCTDecode".data || containsSeq l "stream".data ||
    containsSeq l "endobj".data || containsSeq l "XObject".data

/-- hasActualWords (index.ts line 352): strictly more than 50 words. -/
def hasActualWords (l : List Char) : Bool := 50 < wordTokenCount l

/-- isLikelyScanned (index.ts line 353). -/
def isLikelyScanned (l : List Char) : Bool :=
  hasEncodedData l && !(hasActualWords l)

/-- The branch condition of index.ts line 361: readableTextRatio below 0.3, or
likely scanned.  The floating-point quotient comparison is modelled exactly on
the rationals (`len * 10 < 3 * total`); an empty text gives NaN in JavaScript,
which compares false, matching `0 < 0` here. -/
def scannedBranch (l : List Char) : Bool :=
  decide (10 * readableLen l < 3 * l.length) || isLikelyScanned l

/-! ## LLM response handling (index.ts lines 460-531 and 932-982) -/

/-- Result of JSON.parse on a message-content string, supplied by the
environment: either a syntax error or a parsed value. -/
inductive ContentParse where
  | malformed
  | parsed (v : JVal)

/-- The shape dispatch of index.ts lines 475-484: a bare array is taken as is;
otherwise a responses array field, then a surveys array field, then the value
itself wrapped singly.  Property access on parsed null throws (the error
case). -/
def handleResponseFormats (parsedData : JVal) : Except Unit (List JVal) :=
  match parsedData with
  | .arr xs => .ok xs
  | .null => .error ()
  | v =>
    match jsGet v "responses" with
    | some (.arr xs) => .ok xs
    | _ =>
      match jsGet v "surveys" with
      | some (.arr xs) => .ok xs
      | _ => .ok [v]

/-- Candidate filter of index.ts line 488: value present, not null, and of
object type (arrays included). -/
def candidateObject : JVal → Bool
  | .arr _ => true
  | .obj _ => true
  | _ => false

/-- Field access on a candidate response object (known non-null). -/
def candProp (v : JVal) (k : String) : Option JVal :=
  match v with
  | .obj fs => jsField fs k
  | _ => none

/-- The field-by-field validation map of index.ts lines 489-514 (repeated
verbatim at lines 948-973). -/
def normalizeCandidate (courseName : String) (v : JVal) : SurveyResponse :=
  { course_name := courseName
    response_date :=
      match candProp v "response_date" with
      | some x => if truthy x then some x else none
      | none => none
    q1_rating := validateRating (candProp v "q1_rating") 1 5
    q2_rating := validateRating (candProp v "q2_rating") 1 5
    q3_rating := validateRating (candProp v "q3_rating") 1 5
    q4_rating := validateRating (candProp v "q4_rating") 1 5
    q5_rating := validateRating (candProp v "q5_rating") 1 5
    q6_rating := validateRating (candProp v "q6_rating") 1 5
    q7_rating := validateRating (candProp v "q7_rating") 1 5
    q8_rating := validateRating (candProp v "q8_rating") 1 5
    q9_rating := validateRating (candProp v "q9_rating") 1 5
    q10_rating := validateRating (candProp v "q10_rating") 0 10
    q11_expectations := validateText (candProp v "q11_expectations")
    q12_overall_rating := validateText (candProp v "q12_overall_rating")
    learned_1 := validateText (candProp v "learned_1")
    learned_2 := validateText (candProp v "learned_2")
    learned_3 := validateText (candProp v "learned_3")
    suggestions := validateText (candProp v "suggestions")
    comments := validateText (candProp v "comments")
    interested_more := validateText (candProp v "interested_more")
    participant_name := validateText (candProp v "participant_name")
    company := validateText (candProp v "company")
    email := validateEmail (candProp v "email")
    phone := validateText (candProp v "phone") }

/-- Filter, map, filter chain shared by the text and vision variants
(index.ts lines 487-515 and 946-974). -/
def validateAndCleanResponses (courseName : String) (xs : List JVal) :
    List SurveyResponse :=
  ((xs.filter candidateObject).map (normalizeCandidate courseName)).filter
    hasMeaningfulSurveyData

/-- The optional chain `result.choices?.[0]?.message?.content` of index.ts
line 462, on a non-null envelope.  Indexing a non-array yields undefined
(an object with a key named 0, or a non-empty string, would yield a value
there; neither occurs in a chat-completion envelope and they are not
modelled). -/
def choicesContent (result : JVal) : Option JVal :=
  match jsGet result "choices" with
  | some (.arr (c :: _)) =>
    (match c with
     | .null => none
     | c' =>
       match jsGet c' "message" with
       | some .null => none
       | some m => jsGet m "content"
       | none => none)
  | _ => none

/-- Environment of one chat-completion call on the text path: whether the
fetch rejected, whether reading the body as JSON rejected, the parsed
envelope, and the result of JSON.parse on the message content. -/
structure TextCallReply where
  fetchFail : Bool := false
  jsonFail : Bool := false
  envelope : JVal := .null
  contentParse : ContentParse := .malformed

/-- The LLM-text extraction attempt, index.ts lines 432-524: everything a
thrown exception can cut short is an `Except.error`.  In order: fetch
rejection, body-read rejection, property access on a null envelope, an absent
or falsy message content, a content that fails to parse, and a parsed null
(whose property access throws inside the parse try-block, rethrown as a parse
failure). -/
def runTextPath (reply : TextCallReply) (courseName : String) :
    Except String (List SurveyResponse) :=
  if reply.fetchFail then .error "fetch failed"
  else if reply.jsonFail then .error "json failed"
  else
    match reply.envelope with
    | .null => .error "TypeError"
    | result =>
      match choicesContent result with
      | none => .error "No response from OpenAI"
      | some c =>
        if !(truthy c) then .error "No response from OpenAI"
        else
          match reply.contentParse with
          | .malformed => .error "Failed to parse OpenAI response as JSON"
          | .parsed parsedData =>
            match handleResponseFormats parsedData with
            | .error _ => .error "Failed to parse OpenAI response as JSON"
            | .ok responses => .ok (validateAndCleanResponses courseName responses)

/-! ## Vision path (index.ts lines 837-991) -/

/-- Environment of one vision call for one page. -/
structure VisionPageReply where
  fetchFail : Bool := false
  ok : Bool := true
  jsonFail : Bool := false
  envelope : JVal := .null
  contentParse : ContentParse := .malformed

/-- One iteration of the vision page loop, index.ts lines 848-982.  A fetch
rejection, a body-read rejection, and a property access on a null envelope or
an absent or null choices field are uncaught and abort the loop (`error`).  A
non-ok status first reads the error body (index.ts line 933) - if that read
rejects, the rejection likewise aborts the loop - and only then is the page
skipped with `continue`; `jsonFail` describes reading the one response body,
so it decides both that read and the one of line 938.  Everything from
JSON.parse of the content onward sits in a per-page try-block, so a missing
or unparsable content, a parsed null, or a missing responses array merely
contributes nothing.  `content = result.choices[0]?.message?.content` guards
every access except the one on choices itself. -/
def runVisionPage (courseName : String) (reply : VisionPageReply) :
    Except Unit (List SurveyResponse) :=
  if reply.fetchFail then .error ()
  else if !reply.ok then
    if reply.jsonFail then .error () else .ok []
  else if reply.jsonFail then .error ()
  else
    match reply.envelope with
    | .null => .error ()
    | result =>
      match jsGet result "choices" with
      | none => .error ()
      | some .null => .error ()
      | some choices =>
        let content : Option JVal :=
          match choices with
          | .arr (c :: _) =>
            (match c with
             | .null => none
             | c' =>
               match jsGet c' "message" with
               | some .null => none
               | some m => jsGet m "content"
               | none => none)
          | _ => none
        match content with
        | none => .ok []
        | some .null => .ok []
        | some _ =>
          match reply.contentParse with
          | .malformed => .ok []
          | .parsed pageData =>
            match pageData with
            | .null => .ok []
            | pd =>
              match jsGet pd "responses" with
              | some (.arr xs) => .ok (validateAndCleanResponses courseName xs)
              | _ => .ok []

/-- Sequential page loop of the vision path: the first aborting page stops
everything, otherwise the per-page results are concatenated in order. -/
def runVisionPages (courseName : String) :
    List VisionPageReply → Except Unit (List SurveyResponse)
  | [] => .ok []
  | p :: rest =>
    match runVisionPage courseName p with
    | .error e => .error e
    | .ok rs =>
      match runVisionPages courseName rest with
      | .error e => .error e
      | .ok rest' => .ok (rs ++ rest')

/-! ## Form segmentation (index.ts lines 749-822) -/

/-- One pass of the separator cascade, index.ts lines 785-795: split every
section, keep fragments whose trimmed length exceeds 50, and accept the result
only when it increases the section count without exceeding 50. -/
def applySeparator (sections : List (List Char))
    (split : List Char → List (List Char)) : List (List Char) :=
  let newSections :=
    (sections.map (fun s => (split s).filter
      (fun part => decide (50 < (trimChars part).length)))).flatten
  if sections.length < newSections.length ∧ newSections.length ≤ 50 then
    newSections
  else sections

/-- The merge loop of index.ts lines 799-817, with the accumulated output and
the current block threaded explicitly. -/
def mergeGo (acc : List (List Char)) (current : List Char) :
    List (List Char) → List (List Char)
  | [] => if 50 < (trimChars current).length then acc ++ [trimChars current] else acc
  | s :: rest =>
    if current.length + s.length < 1500 then
      mergeGo acc (current ++ ' ' :: s) rest
    else
      if 50 < (trimChars current).length then
        mergeGo (acc ++ [trimChars current]) s rest
      else mergeGo acc s rest

/-- splitIntoFormSections (index.ts lines 758-822).  The eighteen separator
regular expressions are abstracted as the split functions `seps`; every claim
about the segmenter holds uniformly in them. -/
def splitIntoFormSections (seps : List (List Char → List (List Char)))
    (text : List Char) : List (List Char) :=
  let sections := seps.foldl applySeparator [text]
  let merged := if 15 < sections.length then mergeGo [] [] sections else sections
  merged.take 50

/-! ## Text normalization (index.ts lines 749-756) -/

/-- Replace every maximal whitespace run by a single space
(the global regex replace of a whitespace-plus pattern). -/
def collapseWSGo (prevWS : Bool) : List Char → List Char
  | [] => []
  | c :: rest =>
    if jsWS c then (if prevWS then [] else [' ']) ++ collapseWSGo true rest
    else c :: collapseWSGo false rest

/-- Replace characters outside the printable ASCII range by spaces. -/
def printableMask (l : List Char) : List Char :=
  l.map (fun c => if 0x20 ≤ c.toNat ∧ c.toNat ≤ 0x7E then c else ' ')

/-- Attempt of the date regex (digits, separator dot/slash/dash with optional
whitespace, twice more digits, between word boundaries) at the current
position; returns the three digit groups and the rest.  The alternation-free
pattern is deterministic: digit runs are taken maximally and every failure at
this position is final. -/
def dateMatchAt (prevIsWord : Bool) (l : List Char) :
    Option (List Char × List Char × List Char × List Char) :=
  if prevIsWord then none
  else
    let d1 := l.takeWhile Char.isDigit
    if d1.isEmpty then none
    else
      match (l.dropWhile Char.isDigit).dropWhile jsWS with
      | sep1 :: r3 =>
        if sep1 == '.' || sep1 == '/' || sep1 == '-' then
          let r4 := r3.dropWhile jsWS
          let d2 := r4.takeWhile Char.isDigit
          if d2.isEmpty then none
          else
            match ((r4.dropWhile Char.isDigit)).dropWhile jsWS with
            | sep2 :: r7 =>
              if sep2 == '.' || sep2 == '/' || sep2 == '-' then
                let r8 := r7.dropWhile jsWS
                let d3 := r8.takeWhile Char.isDigit
                if d3.isEmpty then none
                else
                  let after := r8.dropWhile Char.isDigit
                  match after with
                  | [] => some (d1, d2, d3, [])
                  | a :: _ => if wordChar a then none else some (d1, d2, d3, after)
              else none
            | [] => none
        else none
      | [] => none

/-- Global scan applying `dateMatchAt` left to right with single-character
advance on failure, rewriting each match to slash-separated form.  `fuel`
decreases every step and starts at the text length. -/
def dateFixGo : Nat → Bool → List Char → List Char
  | 0, _, l => l
  | _ + 1, _, [] => []
  | fuel + 1, prevIsWord, c :: rest =>
    match dateMatchAt prevIsWord (c :: rest) with
    | some (d1, d2, d3, after) =>
      d1 ++ '/' :: d2 ++ '/' :: d3 ++ dateFixGo fuel true after
    | none => c :: dateFixGo fuel (wordChar c) rest

/-- The date-separator normalization replace of index.ts line 753. -/
def dateFix (l : List Char) : List Char := dateFixGo l.length false l

/-- Case-insensitive literal match; returns the consumed original characters
and the rest. -/
def matchCI : List Char → List Char → Option (List Char × List Char)
  | [], l => some ([], l)
  | _ :: _, [] => none
  | p :: ps, c :: cs =>
    if Char.toLower c = Char.toLower p then
      match matchCI ps cs with
      | some (consumed, rest) => some (c :: consumed, rest)
      | none => none
    else none

/-- Attempt of the case-insensitive strongly-agree/strongly-disagree pattern
(between word boundaries) at the current position; on success returns the
replacement (the match with its inner whitespace collapsed to one space,
original case kept) and the rest. -/
def agreeMatchAt (prevIsWord : Bool) (l : List Char) :
    Option (List Char × List Char) :=
  if prevIsWord then none
  else
    match matchCI "strongly".data l with
    | none => none
    | some (c1, r1) =>
      if (r1.takeWhile jsWS).isEmpty then none
      else
        let r2 := r1.dropWhile jsWS
        let tryWord := fun (w : String) =>
          match matchCI w.data r2 with
          | none => none
          | some (c2, rest) =>
            match rest with
            | [] => some (c1 ++ ' ' :: c2, rest)
            | a :: _ => if wordChar a then none else some (c1 ++ ' ' :: c2, rest)
        match tryWord "agree" with
        | some res => some res
        | none => tryWord "disagree"

/-- Global scan for the strongly-agree collapse replace of index.ts line 754. -/
def agreeFixGo : Nat → Bool → List Char → List Char
  | 0, _, l => l
  | _ + 1, _, [] => []
  | fuel + 1, prevIsWord, c :: rest =>
    match agreeMatchAt prevIsWord (c :: rest) with
    | some (rep, after) => rep ++ agreeFixGo fuel true after
    | none => c :: agreeFixGo fuel (wordChar c) rest

/-- The strongly-agree whitespace collapse of index.ts line 754. -/
def agreeFix (l : List Char) : List Char := agreeFixGo l.length false l

/-- cleanAndNormalizeText (index.ts lines 749-756): whitespace collapse,
printable masking, date normalization, strongly-agree collapse, trim. -/
def cleanAndNormalizeText (l : List Char) : List Char :=
  trimChars (agreeFix (dateFix (printableMask (collapseWSGo false l))))

/-! ## Traditional (heuristic) extraction path (index.ts lines 533-598, 824-835) -/

/-- extractSurveyDataEnhanced (index.ts lines 824-835).  The source is a stub:
its body constructs the response with only the course name and returns it; the
section text is never inspected (the comment in the source defers to a
previous implementation that is not present). -/
def extractSurveyDataEnhanced (text : List Char) (courseName : String) :
    SurveyResponse :=
  { course_name := courseName }

/-- Outputs of the three byte-level raw-text extraction strategies for the
document being processed.  Each strategy catches its own failures and returns
a string, so their behavior is fully described by these three values; the
claims hold uniformly in them. -/
structure PdfInput where
  structText : List Char := []
  ocrLikeText : List Char := []
  rawDecodeText : List Char := []

/-- processPDFWithTraditionalMethods (index.ts lines 533-598): structural
extraction, then the OCR-like pass when under 100 characters, then the raw
pass when under 50; give up under 20 characters, otherwise clean, segment,
extract per section and keep the meaningful. -/
def processPDFWithTraditionalMethods
    (seps : List (List Char → List (List Char))) (pdf : PdfInput)
    (courseName : String) : List SurveyResponse :=
  let extracted1 := pdf.structText
  let extracted2 := if extracted1.length < 100 then pdf.ocrLikeText else extracted1
  let extractedText := if extracted2.length < 50 then pdf.rawDecodeText else extracted2
  if extractedText.length < 20 then []
  else
    let cleanedText := cleanAndNormalizeText extractedText
    let formSections := splitIntoFormSections seps cleanedText
    (formSections.map (fun s => extractSurveyDataEnhanced s courseName)).filter
      hasMeaningfulSurveyData

/-! ## Orchestration (index.ts lines 333-531 and the serve handler 132-331) -/

/-- Which extraction path the OpenAI orchestrator takes. -/
inductive ExtractionPath where
  | text
  | vision
deriving DecidableEq

/-- Environment of one processPDFWithOpenAI run. -/
structure OpenAIEnv where
  pdf : PdfInput := {}
  textReply : TextCallReply := {}
  visionConvertFail : Bool := false
  visionPages : List VisionPageReply := []

/-- The routing decision of index.ts line 361: vision for a scanned-looking
raw text, text otherwise. -/
def chosenPath (env : OpenAIEnv) : ExtractionPath :=
  if scannedBranch env.pdf.rawDecodeText then .vision else .text

/-- processPDFWithOpenAIVision (index.ts lines 837-991): page conversion
failure and any uncaught per-page failure are rethrown. -/
def processPDFWithOpenAIVision (env : OpenAIEnv) (courseName : String) :
    Except Unit (List SurveyResponse) :=
  if env.visionConvertFail then .error ()
  else runVisionPages courseName env.visionPages

/-- The try-block of processPDFWithOpenAI (index.ts lines 336-524): raw text
extraction, the scanned check, then either the vision path (whose error is
rethrown into this block) or the text path. -/
def openAITryBlock (env : OpenAIEnv) (courseName : String) :
    Except String (List SurveyResponse) :=
  if scannedBranch env.pdf.rawDecodeText then
    match processPDFWithOpenAIVision env courseName with
    | .ok rs => .ok rs
    | .error _ => .error "vision failed"
  else runTextPath env.textReply courseName

/-- processPDFWithOpenAI (index.ts lines 333-531): any exception in the
try-block falls back to the traditional methods (index.ts lines 526-530). -/
def processPDFWithOpenAI (seps : List (List Char → List (List Char)))
    (env : OpenAIEnv) (courseName : String) : List SurveyResponse :=
  match openAITryBlock env courseName with
  | .ok rs => rs
  | .error _ => processPDFWithTraditionalMethods seps env.pdf courseName

/-- Job status of a course_uploads record. -/
inductive JobStatus where
  | pending
  | processing
  | completed
  | failed
deriving DecidableEq

/-- Environment of one request to the serve handler.  `apiKeyPresent` is the
truthiness of the stored OpenAI key; the enabled flag is forced on by the
source (index.ts line 192), so the key alone decides the branch. -/
structure HandlerEnv where
  uploadFound : Bool := true
  fileUrlOk : Bool := true
  downloadOk : Bool := true
  insertOk : Bool := true
  apiKeyPresent : Bool := false
  courseName : String := ""
  todayDate : String := ""
  openaiEnv : OpenAIEnv := {}

/-- Observable outcome of one handler run: final job status, the rows written
to survey_responses, the form counts written on completion, and the success
flag of the HTTP reply. -/
structure HandlerResult where
  status : JobStatus
  inserted : List SurveyResponse
  total_forms : Option Nat
  processed_forms : Option Nat
  success : Bool

/-- The placeholder response of index.ts lines 255-259: course name and the
current date, everything else absent. -/
def placeholderForm (courseName todayDate : String) : SurveyResponse :=
  { course_name := courseName, response_date := some (.str todayDate) }

/-- The extraction step of the handler (index.ts lines 235-241). -/
def handlerExtraction (seps : List (List Char → List (List Char)))
    (env : HandlerEnv) : List SurveyResponse :=
  if env.apiKeyPresent then processPDFWithOpenAI seps env.openaiEnv env.courseName
  else processPDFWithTraditionalMethods seps env.openaiEnv.pdf env.courseName

/-- The serve handler of index.ts lines 132-331: load the upload record,
download the file, extract, insert the placeholder when nothing was found,
write the rows, and complete with both form counts set to the number of rows;
any failure on the way marks the job failed. -/
def serveHandler (seps : List (List Char → List (List Char)))
    (env : HandlerEnv) : HandlerResult :=
  if !env.uploadFound then
    { status := .failed, inserted := [], total_forms := none,
      processed_forms := none, success := false }
  else if !env.fileUrlOk then
    { status := .failed, inserted := [], total_forms := none,
      processed_forms := none, success := false }
  else if !env.downloadOk then
    { status := .failed, inserted := [], total_forms := none,
      processed_forms := none, success := false }
  else
    let extractedForms := handlerExtraction seps env
    let extractedForms :=
      if extractedForms.isEmpty then [placeholderForm env.courseName env.todayDate]
      else extractedForms
    if !env.insertOk then
      { status := .failed, inserted := [], total_forms := none,
        processed_forms := none, success := false }
    else
      { status := .completed, inserted := extractedForms,
        total_forms := some extractedForms.length,
        processed_forms := some extractedForms.length, success := true }

/-! ## Claim-side definitions and concrete inputs -/

/-- Trimmed length of an optional text field, 0 when absent. -/
def trimmedLen (t : Option String) : Nat :=
  match t with
  | none => 0
  | some s => (jsTrim s).length

/-- Untrimmed length of an optional text field, 0 when absent. -/
def rawLen (t : Option String) : Nat :=
  match t with
  | none => 0
  | some s => s.length

/-- The retention rule in the words of claim C1, for comparison with
`hasMeaningfulSurveyData`: at least one rating non-null, or at least one text
field (all eight of them) of length over 5, or at least one non-empty contact
field, with untrimmed lengths. -/
def meaningfulPerClaimC1 (r : SurveyResponse) : Bool :=
  ([r.q1_rating, r.q2_rating, r.q3_rating, r.q4_rating, r.q5_rating,
    r.q6_rating, r.q7_rating, r.q8_rating, r.q9_rating, r.q10_rating].any
      Option.isSome) ||
  ([r.q11_expectations, r.q12_overall_rating, r.learned_1, r.learned_2,
    r.learned_3, r.suggestions, r.comments, r.interested_more].any
      (fun t => decide (5 < rawLen t))) ||
  ([r.participant_name, r.company, r.email, r.phone].any
      (fun t => decide (0 < rawLen t)))

/-- Response distinguishing the claimed retention rule from the implemented
one: a long interest text (a field the implementation never checks), an
untrimmed 6-character suggestion, and a whitespace-only name. -/
def cexResponseC1 : SurveyResponse :=
  { course_name := "c", interested_more := some "abcdefg",
    suggestions := some "abcd   ", participant_name := some "   " }

/-- Text with exactly 50 alphabetic tokens of length at least 4 (one of them
the word stream, which also sets the encoded-data flag) and a readability
quotient of 1. -/
def cexScanText : List Char :=
  "stream".data ++ (List.replicate 49 " word".data).flatten

/-- A chat-completion envelope whose single choice carries the message content
placeholder; the actual parse result is supplied separately. -/
def stdEnvelope : JVal :=
  .obj [("choices", .arr [.obj [("message", .obj [("content", .str "x")])]])]

/-- A text-path reply that succeeded at transport level with the standard
envelope and the given content parse. -/
def goodTextReply (p : JVal) : TextCallReply :=
  { fetchFail := false, jsonFail := false, envelope := stdEnvelope,
    contentParse := .parsed p }

/-- A vision-page reply that succeeded at transport level with the standard
envelope and the given content parse. -/
def goodVisionPage (cp : ContentParse) : VisionPageReply :=
  { fetchFail := false, ok := true, jsonFail := false, envelope := stdEnvelope,
    contentParse := cp }

/-- A candidate object carrying only a participant name, enough to pass the
meaningfulness filter. -/
def nameOnlyCandidate : JVal := .obj [("participant_name", .str "Jane Doe")]

/-- A vision page whose HTTP reply is ok but whose parsed envelope lacks the
choices field: indexing it throws, uncaught by the per-page try-block. -/
def noChoicesPage : VisionPageReply :=
  { fetchFail := false, ok := true, jsonFail := false, envelope := .obj [],
    contentParse := .malformed }

/-- A vision page that parses to an object with a one-candidate responses
array. -/
def goodResponsesPage : VisionPageReply :=
  goodVisionPage (.parsed (.obj [("responses", .arr [nameOnlyCandidate])]))

/-- A vision page that parses to a bare one-candidate array. -/
def bareArrayPage : VisionPageReply :=
  goodVisionPage (.parsed (.arr [nameOnlyCandidate]))

/-- A raw text that the detector classifies as text-native. -/
def plainText : List Char := "hello world".data

/-- Orchestrator environment whose text call fails at fetch over a readable
raw text. -/
def fetchFailEnv : OpenAIEnv :=
  { pdf := { rawDecodeText := plainText },
    textReply := { fetchFail := true }, visionConvertFail := false,
    visionPages := [] }

/-- Handler environment with no stored key and an unreadable document: the
traditional path runs and extracts nothing. -/
def emptyDocEnv : HandlerEnv :=
  { uploadFound := true, fileUrlOk := true, downloadOk := true,
    insertOk := true, apiKeyPresent := false, courseName := "Course A",
    todayDate := "2025-01-01", openaiEnv := {} }

/-- A vision page whose HTTP status is not ok: the loop skips it with
continue. -/
def httpErrPage : VisionPageReply :=
  { fetchFail := false, ok := false, jsonFail := false, envelope := .null,
    contentParse := .malformed }

/-! ## Helper lemmas -/

theorem substantialText_iff (t : Option String) :
    substantialText t = true ↔ 5 < trimmedLen t := by
  cases t with
  | none => simp [substantialText, trimmedLen]
  | some s =>
    by_cases hs : s = ""
    · subst hs; decide
    · simp [substantialText, trimmedLen, hs]

theorem presentContact_iff (t : Option String) :
    presentContact t = true ↔ 0 < trimmedLen t := by
  cases t with
  | none => simp [presentContact, trimmedLen]
  | some s =>
    by_cases hs : s = ""
    · subst hs; decide
    · simp [presentContact, trimmedLen, hs]

theorem validateRating_str_agrees (s : String) (n : ℤ) (lo hi : ℚ)
    (hs : jsParseInt s = some n) :
    validateRating (some (.str s)) lo hi
      = validateRating (some (.num (n : ℚ))) lo hi := by
  by_cases he : s = ""
  · subst he
    rw [show jsParseInt "" = none from rfl] at hs
    cases hs
  · have e : validateRating (some (.str s)) lo hi
        = if s = "" then none
          else
            match jsParseInt s with
            | none => none
            | some n => if (n : ℚ) < lo ∨ (n : ℚ) > hi then none
                        else some (n : ℚ) := rfl
    rw [e, if_neg he, hs]
    rfl

/-! ## Claim C1 -/

/-- Claim C1 as stated is false: the implementation never looks at the
interest text, tests trimmed text lengths, and treats a whitespace-only
contact field as absent, so this response satisfies the claimed rule in all
three ways yet is rejected. -/
theorem C1_counterexample :
    meaningfulPerClaimC1 cexResponseC1 = true ∧
      hasMeaningfulSurveyData cexResponseC1 = false := by
  constructor <;> decide

/-- Claim C1 amended: hasMeaningfulSurveyData holds exactly when some rating
is present, or one of the seven checked text fields (the interest text is not
among them) has trimmed length over 5, or some contact field is non-empty
after trimming. -/
theorem C1_meaningful_rule (r : SurveyResponse) :
    hasMeaningfulSurveyData r = true ↔
      ((r.q1_rating.isSome = true ∨ r.q2_rating.isSome = true ∨
        r.q3_rating.isSome = true ∨ r.q4_rating.isSome = true ∨
        r.q5_rating.isSome = true ∨ r.q6_rating.isSome = true ∨
        r.q7_rating.isSome = true ∨ r.q8_rating.isSome = true ∨
        r.q9_rating.isSome = true ∨ r.q10_rating.isSome = true) ∨
       (5 < trimmedLen r.learned_1 ∨ 5 < trimmedLen r.learned_2 ∨
        5 < trimmedLen r.learned_3 ∨ 5 < trimmedLen r.suggestions ∨
        5 < trimmedLen r.comments ∨ 5 < trimmedLen r.q11_expectations ∨
        5 < trimmedLen r.q12_overall_rating) ∨
       (0 < trimmedLen r.participant_name ∨ 0 < trimmedLen r.company ∨
        0 < trimmedLen r.email ∨ 0 < trimmedLen r.phone)) := by
  simp only [hasMeaningfulSurveyData, List.any_cons, List.any_nil,
    Bool.or_eq_true, Bool.or_false, substantialText_iff, presentContact_iff]
  tauto

/-! ## Claim C2 -/

/-- Claim C2 as stated is false: a non-integer numeric string is truncated by
parseInt, so the string three-point-seven validates to 3 while the number
three-point-seven validates to itself. -/
theorem C2_counterexample :
    validateRating (some (.str "3.7")) 1 5 = some 3 ∧
      validateRating (some (.num (37 / 10))) 1 5 = some (37 / 10) ∧
      (37 / 10 : ℚ) ≠ 3 := by
  have h : ¬ ((37 / 10 : ℚ) < 1 ∨ (37 / 10 : ℚ) > 5) := by norm_num
  refine ⟨rfl, ?_, by norm_num⟩
  show (if (37 / 10 : ℚ) < 1 ∨ (37 / 10 : ℚ) > 5 then none
        else some ((37 : ℚ) / 10)) = some (37 / 10)
  rw [if_neg h]

/-- Claim C2 amended: a numeric rating is returned unchanged exactly when it
lies within the bounds and becomes null otherwise; a string input behaves
exactly like the integer parseInt reads from it, so integer numeric strings
coerce identically to their numbers while non-integer ones are truncated. -/
theorem C2_rating_rule (q lo hi : ℚ) :
    (validateRating (some (.num q)) lo hi = some q ↔ lo ≤ q ∧ q ≤ hi) ∧
    (¬ (lo ≤ q ∧ q ≤ hi) → validateRating (some (.num q)) lo hi = none) ∧
    (∀ (s : String) (n : ℤ), jsParseInt s = some n →
      validateRating (some (.str s)) lo hi
        = validateRating (some (.num (n : ℚ))) lo hi) := by
  have e : validateRating (some (.num q)) lo hi
      = if q < lo ∨ q > hi then none else some q := rfl
  refine ⟨?_, ?_, fun s n hs => validateRating_str_agrees s n lo hi hs⟩
  · by_cases h : q < lo ∨ q > hi
    · rw [e, if_pos h]
      constructor
      · intro hc; cases hc
      · rintro ⟨h1, h2⟩; rcases h with h | h <;> linarith
    · rw [e, if_neg h]
      push_neg at h
      simp [h.1, h.2]
  · intro hout
    rw [e]
    by_cases h : q < lo ∨ q > hi
    · rw [if_pos h]
    · exfalso; push_neg at h; exact hout ⟨h.1, h.2⟩

/-- Witness for the amended claim C2 at the integer string 3 on bounds 1..5. -/
theorem C2_rating_rule_witness :
    validateRating (some (.str "3")) 1 5
      = validateRating (some (.num ((3 : ℤ) : ℚ))) 1 5 :=
  (C2_rating_rule 3 1 5).2.2 "3" 3 (by decide)

/-! ## Claim C3 -/

/-- Claim C3 documents intended behavior the code does not implement: the
heuristic field extractor of the source is a stub that returns a response
carrying only the course name, so every section fails the meaningfulness
filter and the traditional path returns zero responses for every input,
in particular for a text with three Name blocks of valid ratings. -/
theorem C3_heuristic_stub :
    (∀ (t : List Char) (cn : String),
        hasMeaningfulSurveyData (extractSurveyDataEnhanced t cn) = false) ∧
    (∀ (seps : List (List Char → List (List Char))) (pdf : PdfInput)
        (cn : String), processPDFWithTraditionalMethods seps pdf cn = []) := by
  have h1 : ∀ (t : List Char) (cn : String),
      hasMeaningfulSurveyData (extractSurveyDataEnhanced t cn) = false :=
    fun _ _ => rfl
  refine ⟨h1, fun seps pdf cn => ?_⟩
  have key : ∀ x : List Char,
      (if x.length < 20 then ([] : List SurveyResponse)
       else ((splitIntoFormSections seps (cleanAndNormalizeText x)).map
         (fun s => extractSurveyDataEnhanced s cn)).filter
           hasMeaningfulSurveyData) = [] := by
    intro x
    split
    · rfl
    · refine List.filter_eq_nil_iff.mpr ?_
      intro a ha
      rcases List.mem_map.mp ha with ⟨s, _, rfl⟩
      simp [h1]
  exact key _

/-! ## Claim C4 -/

set_option maxRecDepth 100000 in
/-- Claim C4 as stated is false at this text (the word stream followed by 49
occurrences of the word word): it has exactly 50 alphabetic tokens of length
at least 4, so under the claimed at-least-50 reading it has actual words and,
with its readability quotient of 1, would be classified text-native; the
implementation requires strictly more than 50 words and classifies it as
scanned. -/
theorem C4_counterexample :
    scannedBranch cexScanText = true ∧
      ¬ (((readableLen cexScanText : ℚ) / (cexScanText.length : ℚ) < 3 / 10)
          ∨ (hasEncodedData cexScanText = true ∧
              wordTokenCount cexScanText < 50)) := by
  have h1 : readableLen cexScanText = 251 := by decide
  have h2 : cexScanText.length = 251 := by decide
  have h3 : wordTokenCount cexScanText = 50 := by decide
  refine ⟨by decide, ?_⟩
  rw [h1, h2, h3]
  rintro (h | ⟨_, h⟩)
  · norm_num at h
  · omega

/-- Claim C4 amended: for a non-empty extracted text the orchestrator routes
to the vision path exactly when the readable fraction (total length of the
maximal letter-or-whitespace runs of length at least 3 over the text length)
is below 3/10, or the text carries an encoded-data marker while having at
most 50 (not: fewer than 50) maximal purely-alphabetic word tokens of length
at least 4. -/
theorem C4_scanned_rule (env : OpenAIEnv)
    (hne : env.pdf.rawDecodeText ≠ []) :
    chosenPath env = .vision ↔
      ((readableLen env.pdf.rawDecodeText : ℚ)
          / (env.pdf.rawDecodeText.length : ℚ) < 3 / 10
        ∨ (hasEncodedData env.pdf.rawDecodeText = true ∧
            ¬ (50 < wordTokenCount env.pdf.rawDecodeText))) := by
  have hlen : 0 < env.pdf.rawDecodeText.length := List.length_pos.mpr hne
  have key : (10 * readableLen env.pdf.rawDecodeText
        < 3 * env.pdf.rawDecodeText.length) ↔
      ((readableLen env.pdf.rawDecodeText : ℚ)
        / (env.pdf.rawDecodeText.length : ℚ) < 3 / 10) := by
    rw [div_lt_div_iff₀ (by exact_mod_cast hlen) (by norm_num : (0 : ℚ) < 10)]
    constructor
    · intro h
      have h2 : ((10 * readableLen env.pdf.rawDecodeText : ℕ) : ℚ)
          < ((3 * env.pdf.rawDecodeText.length : ℕ) : ℚ) := by exact_mod_cast h
      push_cast at h2
      linarith
    · intro h
      have h2 : ((10 * readableLen env.pdf.rawDecodeText : ℕ) : ℚ)
          < ((3 * env.pdf.rawDecodeText.length : ℕ) : ℚ) := by push_cast; linarith
      exact_mod_cast h2
  have main : chosenPath env = .vision ↔
      scannedBranch env.pdf.rawDecodeText = true := by
    unfold chosenPath
    cases hsb : scannedBranch env.pdf.rawDecodeText <;> simp [hsb]
  rw [main]
  unfold scannedBranch isLikelyScanned hasActualWords
  rw [← key]
  simp [Bool.or_eq_true, Bool.and_eq_true, decide_eq_true_eq]

/-- Witness for the amended claim C4: on the readable text hello world the
routing is to the text path and the claimed condition is false. -/
theorem C4_scanned_rule_witness :
    ¬ (chosenPath fetchFailEnv = .vision) ∧
      ¬ (((readableLen fetchFailEnv.pdf.rawDecodeText : ℚ)
            / (fetchFailEnv.pdf.rawDecodeText.length : ℚ) < 3 / 10)
          ∨ (hasEncodedData fetchFailEnv.pdf.rawDecodeText = true ∧
              ¬ (50 < wordTokenCount fetchFailEnv.pdf.rawDecodeText))) := by
  have h := C4_scanned_rule fetchFailEnv (by decide)
  constructor
  · intro hv
    have hc := h.mp hv
    have h1 : readableLen fetchFailEnv.pdf.rawDecodeText = 11 := by decide
    have h2 : fetchFailEnv.pdf.rawDecodeText.length = 11 := by decide
    have h3 : hasEncodedData fetchFailEnv.pdf.rawDecodeText = false := by decide
    rw [h1, h2, h3] at hc
    rcases hc with hq | ⟨hfalse, _⟩
    · norm_num at hq
    · cases hfalse
  · intro hc
    have hv := h.mpr hc
    have : chosenPath fetchFailEnv = .text := by decide
    rw [this] at hv
    cases hv

/-! ## Claim C5 -/

/-- Claim C5: whenever the LLM-text extraction attempt ends in an exception of
any kind, the orchestrator returns exactly the result of the heuristic
(traditional) path; nothing propagates. -/
theorem C5_text_exception_fallback
    (seps : List (List Char → List (List Char))) (env : OpenAIEnv)
    (cn msg : String)
    (hpath : scannedBranch env.pdf.rawDecodeText = false)
    (herr : runTextPath env.textReply cn = .error msg) :
    processPDFWithOpenAI seps env cn
      = processPDFWithTraditionalMethods seps env.pdf cn := by
  unfold processPDFWithOpenAI openAITryBlock
  rw [hpath]
  simp only [Bool.false_eq_true, if_false, herr]

/-- Witness for claim C5: a network failure of the text call over a readable
document falls back to the traditional result. -/
theorem C5_text_exception_fallback_witness :
    processPDFWithOpenAI [] fetchFailEnv "Course A"
      = processPDFWithTraditionalMethods [] fetchFailEnv.pdf "Course A" :=
  C5_text_exception_fallback [] fetchFailEnv "Course A" "fetch failed"
    (by decide) rfl

/-! ## Claim C6 -/

/-- Claim C6: when extraction finds nothing, the handler inserts exactly one
placeholder response (course name and default date only), finishes completed,
and writes 1 into both form counts. -/
theorem C6_placeholder_on_empty
    (seps : List (List Char → List (List Char))) (env : HandlerEnv)
    (h1 : env.uploadFound = true) (h2 : env.fileUrlOk = true)
    (h3 : env.downloadOk = true) (h4 : env.insertOk = true)
    (h5 : handlerExtraction seps env = []) :
    serveHandler seps env =
      { status := .completed,
        inserted := [placeholderForm env.courseName env.todayDate],
        total_forms := some 1, processed_forms := some 1, success := true } := by
  unfold serveHandler
  rw [h1, h2, h3, h5]
  simp [h4]

/-- Witness for claim C6: a document with no extractable text completes with
the lone placeholder. -/
theorem C6_placeholder_on_empty_witness :
    serveHandler [] emptyDocEnv =
      { status := .completed,
        inserted := [placeholderForm "Course A" "2025-01-01"],
        total_forms := some 1, processed_forms := some 1, success := true } :=
  C6_placeholder_on_empty [] emptyDocEnv rfl rfl rfl rfl rfl

/-! ## Claim C7 -/

/-- Claim C7 as stated is false: a page whose HTTP reply is ok but whose
parsed envelope lacks the choices field throws outside the per-page
try-block, aborting the whole vision extraction; the following page, which
alone would contribute one meaningful response, is never processed. -/
theorem C7_counterexample :
    processPDFWithOpenAIVision
        { pdf := {}, textReply := {}, visionConvertFail := false,
          visionPages := [noChoicesPage, goodResponsesPage] } "Course A"
      = .error () ∧
    (runVisionPage "Course A" goodResponsesPage).map List.length = .ok 1 := by
  constructor <;> rfl

/-- Claim C7 amended: a page the per-page handling disposes of (HTTP error
status with a body that still reads as JSON, missing or unparsable message
content, parsed null, or no responses array) is skipped without affecting
the other pages; pages whose failure escapes the per-page handling (fetch
rejection, a body that cannot be read as JSON - whatever the HTTP status,
since the non-ok branch reads the error body before skipping - and a null or
choices-less envelope) abort the whole vision run instead. -/
theorem C7_page_skip (cn : String) (p : VisionPageReply)
    (hskip : runVisionPage cn p = .ok [])
    (pre suf : List VisionPageReply) :
    runVisionPages cn (pre ++ p :: suf) = runVisionPages cn (pre ++ suf) := by
  induction pre with
  | nil =>
    simp only [List.nil_append, runVisionPages, hskip]
    cases hr : runVisionPages cn suf <;> simp
  | cons a pre ih =>
    simp only [List.cons_append, runVisionPages, List.append_eq]
    rw [ih]

/-- Witness for the amended claim C7: an HTTP-erroring page between two good
pages drops out without affecting them. -/
theorem C7_page_skip_witness :
    runVisionPages "Course A"
        ([goodResponsesPage] ++ httpErrPage :: [goodResponsesPage])
      = runVisionPages "Course A" ([goodResponsesPage] ++ [goodResponsesPage]) :=
  C7_page_skip "Course A" httpErrPage rfl [goodResponsesPage] [goodResponsesPage]

/-! ## Claim C8 -/

/-- Claim C8 as stated is false: in the vision variant a message content that
parses to a bare array is ignored (the page contributes no candidates), even
though its single element normalizes to a meaningful response. -/
theorem C8_counterexample :
    runVisionPage "Course A" bareArrayPage = .ok [] ∧
      (validateAndCleanResponses "Course A" [nameOnlyCandidate]).length = 1 := by
  constructor <;> rfl

/-- Claim C8 amended: the text variant accepts all four response shapes — a
bare array, an object with a responses array, an object with a surveys array,
and a bare object wrapped singly — and normalizes their elements; the vision
variant accepts only an object with a responses array and silently ignores
every other shape (here: the bare array). -/
theorem C8_response_shapes :
    (∀ xs, handleResponseFormats (.arr xs) = .ok xs) ∧
    (∀ fs xs, jsField fs "responses" = some (.arr xs) →
        handleResponseFormats (.obj fs) = .ok xs) ∧
    (∀ fs xs, jsField fs "responses" = none →
        jsField fs "surveys" = some (.arr xs) →
        handleResponseFormats (.obj fs) = .ok xs) ∧
    (∀ fs, jsField fs "responses" = none → jsField fs "surveys" = none →
        handleResponseFormats (.obj fs) = .ok [.obj fs]) ∧
    (∀ (cn : String) (p : JVal) (l : List JVal),
        handleResponseFormats p = .ok l →
        runTextPath (goodTextReply p) cn
          = .ok (validateAndCleanResponses cn l)) ∧
    (∀ (cn : String) (xs : List JVal),
        runVisionPage cn
            (goodVisionPage (.parsed (.obj [("responses", .arr xs)])))
          = .ok (validateAndCleanResponses cn xs)) ∧
    (∀ (cn : String) (xs : List JVal),
        runVisionPage cn (goodVisionPage (.parsed (.arr xs))) = .ok []) := by
  refine ⟨fun xs => rfl, ?_, ?_, ?_, ?_, fun cn xs => rfl, fun cn xs => rfl⟩
  · intro fs xs h
    simp only [handleResponseFormats, jsGet, h]
  · intro fs xs h1 h2
    simp only [handleResponseFormats, jsGet, h1, h2]
  · intro fs h1 h2
    simp only [handleResponseFormats, jsGet, h1, h2]
  · intro cn p l h
    have e : runTextPath (goodTextReply p) cn
        = (match handleResponseFormats p with
           | .error _ => .error "Failed to parse OpenAI response as JSON"
           | .ok responses =>
               .ok (validateAndCleanResponses cn responses)) := rfl
    rw [e, h]

/-- Witness for the amended claim C8 at the responses-array shape. -/
theorem C8_response_shapes_witness :
    handleResponseFormats (.obj [("responses", .arr [nameOnlyCandidate])])
      = .ok [nameOnlyCandidate] :=
  C8_response_shapes.2.1 [("responses", .arr [nameOnlyCandidate])]
    [nameOnlyCandidate] rfl

/-! ## Claim C10 -/

/-- Claim C10: a handler run that ends completed always writes the same value
into total_forms and processed_forms, namely the number of inserted rows. -/
theorem C10_counts_agree
    (seps : List (List Char → List (List Char))) (env : HandlerEnv)
    (hc : (serveHandler seps env).status = .completed) :
    (serveHandler seps env).total_forms = (serveHandler seps env).processed_forms
      ∧ (serveHandler seps env).processed_forms
          = some (serveHandler seps env).inserted.length := by
  unfold serveHandler at hc ⊢
  split at hc
  · cases hc
  · split at hc
    · cases hc
    · split at hc
      · cases hc
      · split at hc
        · cases hc
        · simp_all

/-- Witness for claim C10 on a completed zero-data run. -/
theorem C10_counts_agree_witness :
    (serveHandler [] emptyDocEnv).total_forms
        = (serveHandler [] emptyDocEnv).processed_forms
      ∧ (serveHandler [] emptyDocEnv).processed_forms
          = some (serveHandler [] emptyDocEnv).inserted.length :=
  C10_counts_agree [] emptyDocEnv rfl

/-! ## Claim C9 and its segmenter lemmas -/

theorem trimChars_cons_space (s : List Char) : trimChars (' ' :: s) = trimChars s := by
  simp [trimChars, List.dropWhile_cons, jsWS]

theorem length_trimChars_append (a b : List Char) :
    (trimChars b).length ≤ (trimChars (a ++ b)).length := by
  by_cases hd : a.dropWhile jsWS = []
  · have h1 : (a ++ b).dropWhile jsWS = b.dropWhile jsWS := by
      rw [List.dropWhile_append, if_pos (by simp [hd])]
    unfold trimChars
    rw [h1]
  · have h1 : (a ++ b).dropWhile jsWS = a.dropWhile jsWS ++ b := by
      rw [List.dropWhile_append, if_neg (by simp [hd])]
    unfold trimChars
    rw [h1, List.reverse_append, List.dropWhile_append]
    by_cases hb : b.reverse.dropWhile jsWS = []
    · -- b is entirely whitespace, so its trim is empty
      have hall : ∀ x ∈ b, jsWS x := by
        intro x hx
        exact List.dropWhile_eq_nil_iff.mp hb x (List.mem_reverse.mpr hx)
      have hbd : b.dropWhile jsWS = [] := List.dropWhile_eq_nil_iff.mpr hall
      rw [hbd]
      simp
    · rw [if_neg (by simp [hb])]
      -- reduce to comparing with the right-trim of b alone
      have hsplit : b.reverse
          = (b.dropWhile jsWS).reverse ++ (b.takeWhile jsWS).reverse := by
        rw [← List.reverse_append, List.takeWhile_append_dropWhile]
      have hle : ((b.dropWhile jsWS).reverse.dropWhile jsWS).length
          ≤ (b.reverse.dropWhile jsWS).length := by
        rw [hsplit, List.dropWhile_append]
        by_cases hc : (b.dropWhile jsWS).reverse.dropWhile jsWS = []
        · rw [if_pos (by simp [hc]), hc]
          simp
        · rw [if_neg (by simp [hc])]
          simp
      calc ((b.dropWhile jsWS).reverse.dropWhile jsWS).reverse.length
          = ((b.dropWhile jsWS).reverse.dropWhile jsWS).length := by simp
        _ ≤ (b.reverse.dropWhile jsWS).length := hle
        _ ≤ (b.reverse.dropWhile jsWS).length + (a.dropWhile jsWS).reverse.length := by omega
        _ = ((b.reverse.dropWhile jsWS ++ (a.dropWhile jsWS).reverse)).reverse.length := by
              simp [Nat.add_comm]

theorem applySeparator_length_le (secs : List (List Char))
    (f : List Char → List (List Char)) :
    secs.length ≤ (applySeparator secs f).length := by
  simp only [applySeparator]
  split
  · next h => exact le_of_lt h.1
  · exact le_refl _

theorem foldl_applySeparator_length (seps : List (List Char → List (List Char)))
    (secs : List (List Char)) :
    secs.length ≤ (seps.foldl applySeparator secs).length := by
  induction seps generalizing secs with
  | nil => exact le_refl _
  | cons f seps ih =>
    exact le_trans (applySeparator_length_le secs f) (ih (applySeparator secs f))

theorem applySeparator_cases (secs : List (List Char))
    (f : List Char → List (List Char)) :
    applySeparator secs f = secs ∨
      ∀ s ∈ applySeparator secs f, 50 < (trimChars s).length := by
  simp only [applySeparator]
  split
  · right
    intro s hs
    rcases List.mem_flatten.mp hs with ⟨l, hl, hsl⟩
    rcases List.mem_map.mp hl with ⟨t, _, rfl⟩
    have := List.of_mem_filter hsl
    exact of_decide_eq_true this
  · left; rfl

theorem foldl_applySeparator_inv (seps : List (List Char → List (List Char)))
    (secs : List (List Char)) :
    seps.foldl applySeparator secs = secs ∨
      ∀ s ∈ seps.foldl applySeparator secs, 50 < (trimChars s).length := by
  induction seps generalizing secs with
  | nil => left; rfl
  | cons f seps ih =>
    simp only [List.foldl_cons]
    rcases applySeparator_cases secs f with heq | hall
    · rw [heq]
      exact ih secs
    · rcases ih (applySeparator secs f) with heq | hall2
      · right; rw [heq]; exact hall
      · right; exact hall2

theorem mergeGo_ne_nil (secs : List (List Char)) (acc : List (List Char))
    (current : List Char)
    (hall : ∀ s ∈ secs, 50 < (trimChars s).length)
    (hcur : 50 < (trimChars current).length ∨ secs ≠ []) :
    mergeGo acc current secs ≠ [] := by
  induction secs generalizing acc current with
  | nil =>
    rcases hcur with hc | hne
    · simp [mergeGo, hc]
    · exact absurd rfl hne
  | cons s rest ih =>
    have hs : 50 < (trimChars s).length := hall s (List.mem_cons_self s rest)
    have hrest : ∀ x ∈ rest, 50 < (trimChars x).length :=
      fun x hx => hall x (List.mem_cons_of_mem s hx)
    simp only [mergeGo]
    split
    · refine ih acc (current ++ ' ' :: s) hrest ?_
      by_cases hr : rest = []
      · left
        calc 50 < (trimChars s).length := hs
          _ = (trimChars (' ' :: s)).length := by rw [trimChars_cons_space]
          _ ≤ (trimChars (current ++ ' ' :: s)).length :=
              length_trimChars_append current (' ' :: s)
      · right; exact hr
    · split
      · exact ih (acc ++ [trimChars current]) s hrest (Or.inl hs)
      · exact ih acc s hrest (Or.inl hs)

/-- Claim C9: for every separator battery and every input text the segmenter
returns at most 50 sections and never an empty list (in particular for
non-empty input).  The cap comes from the final slice; non-emptiness holds
because a split is only accepted when it increases the section count, and the
merge loop always emits its last block, whose trimmed length exceeds 50
because every fragment that survives an accepted split does. -/
theorem C9_segmenter_bounds (seps : List (List Char → List (List Char)))
    (text : List Char) :
    (splitIntoFormSections seps text).length ≤ 50 ∧
      splitIntoFormSections seps text ≠ [] := by
  unfold splitIntoFormSections
  have hlen1 : 1 ≤ (seps.foldl applySeparator [text]).length := by
    simpa using foldl_applySeparator_length seps [text]
  constructor
  · rw [List.length_take]
    exact min_le_left _ _
  · have hm : (if 15 < (seps.foldl applySeparator [text]).length
        then mergeGo [] [] (seps.foldl applySeparator [text])
        else seps.foldl applySeparator [text]) ≠ [] := by
      by_cases h15 : 15 < (seps.foldl applySeparator [text]).length
      · rw [if_pos h15]
        have hall : ∀ s ∈ seps.foldl applySeparator [text],
            50 < (trimChars s).length := by
          rcases foldl_applySeparator_inv seps [text] with heq | hall
          · rw [heq] at h15; simp at h15
          · exact hall
        refine mergeGo_ne_nil _ [] [] hall (Or.inr ?_)
        exact List.ne_nil_of_length_pos (lt_of_lt_of_le Nat.zero_lt_one hlen1)
      · rw [if_neg h15]
        exact List.ne_nil_of_length_pos (lt_of_lt_of_le Nat.zero_lt_one hlen1)
    intro hnil
    rcases List.take_eq_nil_iff.mp hnil with h | h
    · exact absurd h (by norm_num)
    · exact hm h
